import Mathlib

/-!
Shallow embedding of the text-segmentation repository
(`src/loader.py` and `models/score-cnn.py`) with proofs of the
specification's claims about it.

Strings from the Python code are modelled as `List Char` (ASCII);
floating-point quantities (losses, probabilities) as `ℚ`; tensors as
nested lists.
-/

namespace TextSeg

/-! ## Vector Store (`loader.py`, class `LazyVectors`) -/

/-- `LazyVectors.unk_idx = 1` (class attribute, loader.py line 76). -/
def unk_idx : ℕ := 1

/-- Python truthiness of `self._stoi.get(s)`: `None` is falsy and the
integer `0` is falsy; every other integer is truthy. -/
def pyTruthy : Option ℕ → Bool
  | none => false
  | some n => n ≠ 0

/-- `LazyVectors.stoi` (loader.py lines 122-125):
```
idx = self._stoi.get(s)
return idx + 2 if idx else self.unk_idx
```
The dict `self._stoi` is modelled as the partial map `m`. -/
def stoi (m : List Char → Option ℕ) (s : List Char) : ℕ :=
  let idx := m s
  if pyTruthy idx then idx.getD 0 + 2 else unk_idx

/-! ## Token cleaning (`loader.py`, `clean_token`, lines 209-217) -/

/-- Python `str.isdigit()` restricted to ASCII: nonempty and all
characters are decimal digits (codes 48-57). -/
def pyIsDigit (t : List Char) : Bool :=
  !t.isEmpty && t.all (fun c => 48 ≤ c.toNat && c.toNat ≤ 57)

/-- Characters kept by `re.sub(r"[^a-z0-9\s]", '', ·)`: lowercase ASCII
letters (97-122), digits (48-57), and the whitespace class `\s`
(space 32, tab 9, newline 10, carriage return 13, vertical tab 11,
form feed 12). -/
def keepChar (c : Char) : Bool :=
  (97 ≤ c.toNat && c.toNat ≤ 122) || (48 ≤ c.toNat && c.toNat ≤ 57) ||
    (c.toNat = 32 || c.toNat = 9 || c.toNat = 10 ||
      c.toNat = 13 || c.toNat = 11 || c.toNat = 12)

/-- `re.sub(r"[']+", ' ', ·)`: replace every maximal run of apostrophes
(character code 39) with a single space. The flag records whether the
previous character was an apostrophe (i.e. we are inside a run already
replaced). -/
def subAposAux : Bool → List Char → List Char
  | _, [] => []
  | prev, c :: cs =>
    if c.toNat = 39 then
      if prev then subAposAux true cs else ' ' :: subAposAux true cs
    else c :: subAposAux false cs

/-- The second substitution of `clean_token`. -/
def subApos (t : List Char) : List Char := subAposAux false t

/-- `clean_token` (loader.py lines 209-217):
```
if token.isdigit():
    token = '#NUM'
else:
    token = re.sub(r"[^a-z0-9\s]", '', token.lower())
    token = re.sub(r"[']+", ' ', token)
return token
```
-/
def clean_token (t : List Char) : List Char :=
  if pyIsDigit t then ['#', 'N', 'U', 'M']
  else subApos ((t.map Char.toLower).filter keepChar)

/-! ## Batch assembly (`loader.py`, class `Batch`) -/

/-- A `Document` as `Batch.unravel` consumes it: its sentence list and
its label tensor (`Document.__len__` returns `len(self.sents)`). -/
structure PyDocument (α : Type) where
  sents : List α
  labels : List ℕ
deriving DecidableEq, Repr

/-- The index list `ix` built by `Batch.unravel` (loader.py lines 27-28):
```
lengths = [0] + [len(d) for d in documents]
ix = [sum(lengths[:idx+1]) for idx, _ in enumerate(lengths)]
```
-/
def batch_ix {α : Type} (documents : List (PyDocument α)) : List ℕ :=
  let lengths := 0 :: documents.map (fun d => d.sents.length)
  (List.range lengths.length).map (fun idx => (lengths.take (idx + 1)).sum)

/-- `sents = flatten([d.sents for d in documents])` (loader.py line 29). -/
def batch_sents {α : Type} (documents : List (PyDocument α)) : List α :=
  (documents.map (fun d => d.sents)).flatten

/-- `labels = torch.cat([d.labels for d in documents])` (loader.py line 30). -/
def batch_labels {α : Type} (documents : List (PyDocument α)) : List ℕ :=
  (documents.map (fun d => d.labels)).flatten

/-- `Batch.regroup` (loader.py lines 33-35):
```
regrouped = [groups[self.ix[i]:self.ix[i+1]] for i in range(len(self.ix)-1)]
```
A Python slice `groups[a:b]` with `0 ≤ a ≤ b` is `(groups.drop a).take (b - a)`. -/
def regroup {β : Type} (ix : List ℕ) (groups : List β) : List (List β) :=
  (List.range (ix.length - 1)).map
    (fun i => (groups.drop (ix.getD i 0)).take (ix.getD (i + 1) 0 - ix.getD i 0))

/-! ## CNN encoder (`score-cnn.py`, class `CNNEncoder`) -/

/-- Column-wise combination of the rows of a matrix with `f`
(used for reductions over `dim=1` of a `(batch, channel, position)`
tensor: the rows of each batch element's matrix are the channels). -/
def colZip (f : ℚ → ℚ → ℚ) : List (List ℚ) → List ℚ
  | [] => []
  | [r] => r
  | r :: rs => List.zipWith f r (colZip f rs)

/-- `CNNEncoder._avg` (score-cnn.py line 79): `catted.mean(dim=1)`.
`catted` has shape `(batch, hidden_dim, positions)`; `dim=1` is the
channel axis, so each output entry is the mean over the channels of one
position. -/
def mean_dim1 (catted : List (List (List ℚ))) : List (List ℚ) :=
  catted.map (fun m => (colZip (· + ·) m).map (fun x => x / m.length))

/-- `CNNEncoder._sum` (score-cnn.py line 87): `catted.sum(dim=1)`. -/
def sum_dim1 (catted : List (List (List ℚ))) : List (List ℚ) :=
  catted.map (fun m => colZip (· + ·) m)

/-- `CNNEncoder._max` (score-cnn.py line 83):
`F.max_pool2d(catted, kernel_size=(catted.shape[1], 1)).squeeze()`,
i.e. the maximum over the channel axis at each position. -/
def max_dim1 (catted : List (List (List ℚ))) : List (List ℚ) :=
  catted.map (fun m => colZip max m)

/-- A matrix with `C` rows, each of length `T`. -/
def uniform (C T : ℕ) (m : List (List ℚ)) : Prop :=
  m.length = C ∧ ∀ r ∈ m, r.length = T

/-- A `(B, C, T)` tensor as nested lists. -/
def shape3 (B C T : ℕ) (t3 : List (List (List ℚ))) : Prop :=
  t3.length = B ∧ ∀ m ∈ t3, uniform C T m

/-- A `(B, T)` matrix as nested lists: `B` rows of length `T`. -/
def shape2 (B T : ℕ) (t2 : List (List ℚ)) : Prop :=
  t2.length = B ∧ ∀ r ∈ t2, r.length = T

instance (C T : ℕ) (m : List (List ℚ)) : Decidable (uniform C T m) :=
  inferInstanceAs (Decidable (_ ∧ _))

instance (B C T : ℕ) (t3 : List (List (List ℚ))) : Decidable (shape3 B C T t3) :=
  inferInstanceAs (Decidable (_ ∧ _))

instance (B T : ℕ) (t2 : List (List ℚ)) : Decidable (shape2 B T t2) :=
  inferInstanceAs (Decidable (_ ∧ _))

/-- The positions produced by a 1-D valid convolution of kernel size `n`
over a length-`L` sequence: windows `l[i : i+n]` for
`i ∈ 0 .. L - n`, hence `L - n + 1` of them. -/
def conv1d_windows (n : ℕ) (l : List ℚ) : List (List ℚ) :=
  (List.range (l.length + 1 - n)).map (fun i => (l.drop i).take n)

/-- The length axis of `catted = torch.cat(convolved, dim=2)`
(score-cnn.py line 70): each convolution contributes `maxlen - n + 1`
positions, concatenated over all kernel sizes. -/
def catted_width (maxlen : ℕ) (nrange : List ℕ) : ℕ :=
  (nrange.map (fun n => maxlen + 1 - n)).sum

/-- `CNNScore.__init__` (score-cnn.py line 119):
`input_dim = sum([maxlen - (n-1) for n in nrange])`. -/
def input_dim (maxlen : ℤ) (nrange : List ℤ) : ℤ :=
  (nrange.map (fun n => maxlen - (n - 1))).sum

/-! ## Encoder construction (`CNNEncoder.__init__`, score-cnn.py lines 35-53) -/

/-- Outcome of running `CNNEncoder.__init__`. -/
inductive InitResult where
  | ok (convs : List ℤ)
  | assertionError
  | attributeError
deriving DecidableEq, Repr

/-- The pooling methods that exist as attributes of `CNNEncoder`:
`_avg`, `_max`, `_sum` are defined (score-cnn.py lines 77-87); no
`_last` method exists anywhere in the class. -/
def pool_attrs : List String := ["avg", "max", "sum"]

/-- The list checked by the construction-time assertion
(score-cnn.py line 39). -/
def allowed_methods : List String := ["avg", "last", "max", "sum"]

/-- `CNNEncoder.__init__` (score-cnn.py lines 35-53):
```
assert type(nrange) == list, ...
assert method in ['avg', 'last', 'max', 'sum'], 'Invalid method chosen.'
self.method = eval('self._'+ method)
...
self.convs = nn.ModuleList([... kernel_size=n ... for n in nrange])
```
The first assertion always passes here (`nrange` is a list by type);
the `eval` resolves the attribute `self._<method>` and raises
`AttributeError` when no such attribute exists. -/
def cnnEncoderInit (nrange : List ℤ) (method : String) : InitResult :=
  if method ∈ allowed_methods then
    if method ∈ pool_attrs then .ok nrange else .attributeError
  else .assertionError

/-! ## Prediction (`Trainer.predict_batch`, score-cnn.py lines 294-310) -/

/-- Default decision threshold `THETA=0.50`. -/
def default_THETA : ℚ := 1 / 2

/-- `Trainer.predict_batch` after the softmax: `probs` is the list of
per-sentence probability rows `(p₀, p₁)` and the code flags
`boundaries = probs[:, 1] > THETA` (score-cnn.py line 305). -/
def predict_batch (probs : List (ℚ × ℚ)) (THETA : ℚ) : List Bool :=
  probs.map (fun p => decide (THETA < p.2))

/-! ## Training loss (`Trainer.train_batch`, score-cnn.py lines 218-233) -/

/-- `F.cross_entropy(preds[:-1], batch.labels[:-1], size_average=False)`
(score-cnn.py line 228): with `size_average=False` the per-element
cross-entropy terms `ce predᵢ labelᵢ` are summed, and the Python slices
`[:-1]` drop the last element of each sequence. The per-element term
`ce` is kept abstract (a real-valued numerical function). -/
def train_batch_loss {P : Type} (ce : P → ℕ → ℚ) (preds : List P)
    (labels : List ℕ) : ℚ :=
  (List.zipWith ce preds.dropLast labels.dropLast).sum

/-! ## Trainer state (`Trainer`, score-cnn.py lines 131-216)

`train_loss`, `val_loss`, `metrics` and `best_val` are *class*
attributes (lines 135-138); Python attribute lookup reads the instance
dict first and falls back to the class. The code only ever *assigns*
`self.best_val` and `self.best_model` (lines 208-209) — the three
history containers are mutated in place (`.append`), which resolves to
the single class-level object shared by every instance. -/

/-- The class-level attributes of `Trainer` (shared by all instances). -/
structure TrainerClass (M : Type) where
  train_loss : List ℚ
  val_loss : List ℚ
  metrics : List (String × List ℚ)
  best_val : ℚ
deriving DecidableEq, Repr

/-- The class attributes as initialised at class-definition time
(score-cnn.py lines 135-138): empty histories and `best_val = 1e10`. -/
def trainerClassInit (M : Type) : TrainerClass M :=
  ⟨[], [], [], 10 ^ 10⟩

/-- The instance dict of one `Trainer`: only the attributes the code
ever assigns on `self` that shadow a class attribute, absent until the
first assignment. -/
structure TrainerInst (M : Type) where
  best_val? : Option ℚ
  best_model? : Option M
deriving DecidableEq, Repr

/-- `Trainer.__init__` (score-cnn.py lines 141-153): sets model,
optimizer, batch size and directories, but assigns *none* of best_val,
best_model, train_loss, val_loss, metrics on the instance. -/
def trainerInit (M : Type) : TrainerInst M :=
  ⟨none, none⟩

/-- Attribute lookup `self.train_loss`: never in the instance dict, so
it resolves to the class attribute. -/
def attr_train_loss {M : Type} (cls : TrainerClass M) (_inst : TrainerInst M) :
    List ℚ :=
  cls.train_loss

/-- Attribute lookup `self.best_val`: the instance dict shadows the
class attribute once `self.best_val = val_loss` has run. -/
def attr_best_val {M : Type} (cls : TrainerClass M) (inst : TrainerInst M) : ℚ :=
  inst.best_val?.getD cls.best_val

/-- `self.train_loss.append(x)` (score-cnn.py line 195): in-place
append to the object the lookup resolves to — the shared class list. -/
def append_train_loss {M : Type} (cls : TrainerClass M) (_inst : TrainerInst M)
    (v : ℚ) : TrainerClass M :=
  {cls with train_loss := cls.train_loss ++ [v]}

/-- `self.metrics[key].append(val)` for one key of the defaultdict. -/
def metricsAppend : List (String × List ℚ) → String → ℚ → List (String × List ℚ)
  | [], k, v => [(k, [v])]
  | (k', vs) :: rest, k, v =>
    if k' = k then (k', vs ++ [v]) :: rest else (k', vs) :: metricsAppend rest k v

/-- `for key, val in metrics_dict.items(): self.metrics[key].append(val)`
(score-cnn.py lines 204-205). -/
def metricsUpdate (m : List (String × List ℚ)) (d : List (String × ℚ)) :
    List (String × List ℚ) :=
  d.foldl (fun acc p => metricsAppend acc p.1 p.2) m

/-- The validation block of `Trainer.train_epoch`
(score-cnn.py lines 198-213):
```
self.val_loss.append(val_loss)
for key, val in metrics_dict.items():
    self.metrics[key].append(val)
if val_loss < self.best_val:
    self.best_val = val_loss
    self.best_model = deepcopy(self.model.eval())
```
The appends mutate the shared class containers; the two assignments
create instance attributes; `deepcopy` stores the model's current value
(`model` here, by value semantics). -/
def validation_update {M : Type} (cls : TrainerClass M) (inst : TrainerInst M)
    (metrics_dict : List (String × ℚ)) (val_loss : ℚ) (model : M) :
    TrainerClass M × TrainerInst M :=
  let cls1 : TrainerClass M := {cls with val_loss := cls.val_loss ++ [val_loss]}
  let cls2 : TrainerClass M := {cls1 with metrics := metricsUpdate cls1.metrics metrics_dict}
  if val_loss < attr_best_val cls2 inst then
    (cls2, {inst with best_val? := some val_loss, best_model? := some model})
  else (cls2, inst)

/-! ## Concrete instances used in witnesses and counterexamples -/

/-- A tiny concrete `_stoi` dict: `{'the': 0, 'cat': 1}` (the first two
intersected vocabulary entries). -/
def demo_stoi : List Char → Option ℕ := fun s =>
  if s = ['t', 'h', 'e'] then some 0
  else if s = ['c', 'a', 't'] then some 1
  else none

/-- A 3-sentence document with labels `[0,0,1]` (spec's end-to-end
scenario). -/
def demo_doc1 : PyDocument (List Char) := ⟨[['a'], ['b'], ['c']], [0, 0, 1]⟩

/-- A 2-sentence document with labels `[0,1]`. -/
def demo_doc2 : PyDocument (List Char) := ⟨[['d'], ['e']], [0, 1]⟩

/-- The two-document batch of the spec's end-to-end scenario. -/
def demo_docs : List (PyDocument (List Char)) := [demo_doc1, demo_doc2]

/-- A concrete `catted` tensor of shape `(batch, hidden_dim, positions)
= (1, 2, 3)`. -/
def demo_catted : List (List (List ℚ)) := [[[1, 2, 3], [4, 5, 6]]]

/-! # Theorems -/

/-! ## C1 / C10: `LazyVectors.stoi` -/

/-- C1 — counterexample. The claim states that a token in the mapping is
always resolved to its mapped index plus 2, in particular that the token
at intersected index 0 resolves to 2. On the code, `idx = 0` is falsy,
so the first vocabulary entry resolves to the UNK index 1, not to 2. -/
theorem stoi_first_vocab_entry_unk :
    demo_stoi ['t', 'h', 'e'] = some 0 ∧
      stoi demo_stoi ['t', 'h', 'e'] = unk_idx ∧
      stoi demo_stoi ['t', 'h', 'e'] ≠ 0 + 2 := by
  refine ⟨rfl, rfl, ?_⟩
  decide

/-- C1 (amended) — `stoi` returns the UNK index when the token is not in
the mapping **or** is mapped to the raw index 0 (Python truthiness), and
returns the mapped index plus 2 for every token mapped to a nonzero raw
index. -/
theorem stoi_truthiness_resolution (m : List Char → Option ℕ) (s : List Char) :
    (m s = none → stoi m s = unk_idx) ∧
      (m s = some 0 → stoi m s = unk_idx) ∧
      (∀ i : ℕ, i ≠ 0 → m s = some i → stoi m s = i + 2) := by
  refine ⟨fun h => ?_, fun h => ?_, fun i hi h => ?_⟩
  · simp [stoi, pyTruthy, h]
  · simp [stoi, pyTruthy, h]
  · simp [stoi, pyTruthy, h, hi]

/-- C1 — witness: the token `'cat'` is mapped to the nonzero raw index 1
and resolves to 3. -/
theorem stoi_truthiness_resolution_witness :
    demo_stoi ['c', 'a', 't'] = some 1 ∧ stoi demo_stoi ['c', 'a', 't'] = 1 + 2 :=
  ⟨rfl, (stoi_truthiness_resolution demo_stoi ['c', 'a', 't']).2.2 1 (by decide) rfl⟩

/-- C10 — counterexample. The claim states every mapped token resolves to
an index at least 2; the token mapped to raw index 0 resolves to 1. -/
theorem stoi_mapped_below_two :
    demo_stoi ['t', 'h', 'e'] = some 0 ∧ ¬ 2 ≤ stoi demo_stoi ['t', 'h', 'e'] := by
  refine ⟨rfl, ?_⟩
  decide

/-- C10 (amended) — `stoi` never returns the padding index 0: every
result is at least 1 (the UNK index), and a token mapped to a nonzero
raw index resolves to an index of at least 2 (in fact at least 3). -/
theorem stoi_never_padding (m : List Char → Option ℕ) (s : List Char) :
    1 ≤ stoi m s ∧ stoi m s ≠ 0 ∧
      (∀ i : ℕ, i ≠ 0 → m s = some i → 2 ≤ stoi m s) := by
  have h : 1 ≤ stoi m s := by
    unfold stoi
    cases h : m s with
    | none => simp [pyTruthy, unk_idx]
    | some i =>
      by_cases hi : i = 0 <;> simp [pyTruthy, hi, unk_idx]
  refine ⟨h, by omega, fun i hi hmi => ?_⟩
  simp [stoi, pyTruthy, hmi, hi]

/-- C10 — witness: the token `'cat'` (nonzero raw index 1) resolves to an
index of at least 2, and the result is nonzero. -/
theorem stoi_never_padding_witness :
    2 ≤ stoi demo_stoi ['c', 'a', 't'] ∧ stoi demo_stoi ['c', 'a', 't'] ≠ 0 :=
  ⟨(stoi_never_padding demo_stoi ['c', 'a', 't']).2.2 1 (by decide) rfl,
    (stoi_never_padding demo_stoi ['c', 'a', 't']).2.1⟩

/-! ## C5: `CNNEncoder.__init__` -/

/-- C5 — counterexample. The claim states construction fails for an
empty window-size list and succeeds for every valid method name. On the
code, the only assertion about `nrange` is `type(nrange) == list`, so
the empty list is accepted; and the valid name `'last'` passes the
assertion but `eval('self._last')` raises `AttributeError` because no
`_last` method exists. -/
theorem encoder_init_claim_false :
    cnnEncoderInit [] "avg" = .ok [] ∧
      cnnEncoderInit [3, 4, 5] "last" = .attributeError := by
  constructor <;> rfl

/-- C5 (amended) — construction succeeds exactly when the method name has
a matching pooling attribute (`'avg'`, `'max'`, `'sum'`), for any
window-size list including the empty one; a name outside the four
asserted options is an `AssertionError`; the asserted-but-unimplemented
name `'last'` is an `AttributeError`. -/
theorem encoder_init_resolution (nrange : List ℤ) (method : String) :
    (cnnEncoderInit nrange method = .ok nrange ↔ method ∈ pool_attrs) ∧
      (cnnEncoderInit nrange method = .assertionError ↔ method ∉ allowed_methods) ∧
      (cnnEncoderInit nrange method = .attributeError ↔ method = "last") := by
  have hsub : method ∈ pool_attrs → method ∈ allowed_methods := by
    intro h
    simp only [pool_attrs, List.mem_cons, List.mem_singleton,
      List.not_mem_nil, or_false] at h
    rcases h with rfl | rfl | rfl <;> decide
  have hlast : method ∈ allowed_methods → method ∉ pool_attrs → method = "last" := by
    intro h1 h2
    simp only [allowed_methods, List.mem_cons, List.mem_singleton,
      List.not_mem_nil, or_false] at h1
    rcases h1 with rfl | rfl | rfl | rfl
    · exact absurd (by decide) h2
    · rfl
    · exact absurd (by decide) h2
    · exact absurd (by decide) h2
  by_cases h1 : method ∈ allowed_methods <;> by_cases h2 : method ∈ pool_attrs
  · refine ⟨?_, ?_, ?_⟩ <;> simp [cnnEncoderInit, h1, h2]
    · intro h; subst h; exact absurd h2 (by decide)
  · refine ⟨?_, ?_, ?_⟩ <;> simp [cnnEncoderInit, h1, h2]
    exact hlast h1 h2
  · exact absurd (hsub h2) h1
  · refine ⟨?_, ?_, ?_⟩ <;> simp [cnnEncoderInit, h1, h2]
    intro h; subst h; exact absurd (by decide) h1

/-- C5 — witness: construction with the current configuration
`nrange=[3,4,5], method='max'` succeeds. -/
theorem encoder_init_resolution_witness :
    cnnEncoderInit [3, 4, 5] "max" = .ok [3, 4, 5] :=
  (encoder_init_resolution [3, 4, 5] "max").1.mpr (by decide)

/-! ## C8: `Trainer.predict_batch` threshold -/

/-- C8 — for every batch, `predict_batch` flags sentence `i` as a
boundary exactly when its boundary-class probability is strictly greater
than `THETA`; a probability exactly equal to the threshold (in
particular equal to the default `THETA = 0.50`) is not flagged. -/
theorem predict_threshold_strict (probs : List (ℚ × ℚ)) (THETA : ℚ) (i : ℕ)
    (hi : i < probs.length) :
    ((predict_batch probs THETA).getD i false = true ↔
        THETA < (probs.getD i (0, 0)).2) ∧
      ((probs.getD i (0, 0)).2 = THETA →
        (predict_batch probs THETA).getD i false = false) ∧
      (THETA = default_THETA → (probs.getD i (0, 0)).2 = 1 / 2 →
        (predict_batch probs THETA).getD i false = false) := by
  have h1 : (predict_batch probs THETA).getD i false
      = decide (THETA < (probs.getD i (0, 0)).2) := by
    simp [predict_batch, List.getD_eq_getElem?_getD, List.getElem?_map,
      List.getElem?_eq_getElem hi]
  refine ⟨?_, fun h => ?_, fun ht h => ?_⟩
  · rw [h1]; exact decide_eq_true_iff
  · rw [h1, h]; simp
  · rw [h1, h, ht]; simp [default_THETA]

/-- C8 — witness: a single sentence whose boundary-class probability is
exactly 0.50 is not flagged at the default threshold. -/
theorem predict_threshold_strict_witness :
    (0 : ℕ) < [((1 : ℚ) / 2, (1 : ℚ) / 2)].length ∧
      (predict_batch [((1 : ℚ) / 2, (1 : ℚ) / 2)] default_THETA).getD 0 false = false :=
  ⟨by decide,
    (predict_threshold_strict [((1 : ℚ) / 2, (1 : ℚ) / 2)] default_THETA 0
      (by decide)).2.2 rfl rfl⟩

/-! ## C7: best-model selection in `Trainer.train_epoch` -/

/-- C7 — after a validation, the best validation loss and the best-model
snapshot are updated exactly when the new validation loss is strictly
lower than the best seen so far (`self.best_val` under attribute
lookup); a validation loss equal to the current best leaves the
instance untouched (no new snapshot); the validation-loss history is
appended in either case. The snapshot stores the model's value at
snapshot time (`deepcopy`, i.e. value semantics here). -/
theorem validation_best_update_strict {M : Type} (cls : TrainerClass M)
    (inst : TrainerInst M) (md : List (String × ℚ)) (vl : ℚ) (model : M) :
    (vl < attr_best_val cls inst →
        (validation_update cls inst md vl model).2.best_val? = some vl ∧
        (validation_update cls inst md vl model).2.best_model? = some model) ∧
      (¬ vl < attr_best_val cls inst →
        (validation_update cls inst md vl model).2 = inst) ∧
      (vl = attr_best_val cls inst →
        (validation_update cls inst md vl model).2 = inst) ∧
      (validation_update cls inst md vl model).1.val_loss = cls.val_loss ++ [vl] := by
  refine ⟨fun h => ?_, fun h => ?_, fun h => ?_, ?_⟩
  · simp only [validation_update]
    split
    · exact ⟨rfl, rfl⟩
    · next hc => exact absurd h hc
  · simp only [validation_update]
    split
    · next hc => exact absurd hc h
    · rfl
  · simp only [validation_update]
    split
    · next hc => exact absurd (h ▸ hc) (lt_irrefl vl)
    · rfl
  · simp only [validation_update]
    split <;> rfl

/-- C7 — witness: with the fresh class state (`best_val = 1e10`) a
validation loss of 5 strictly improves, so the snapshot is taken. -/
theorem validation_best_update_strict_witness :
    (5 : ℚ) < attr_best_val (trainerClassInit ℕ) (trainerInit ℕ) ∧
      (validation_update (trainerClassInit ℕ) (trainerInit ℕ) [] 5 42).2.best_model?
        = some 42 :=
  ⟨by norm_num [attr_best_val, trainerClassInit, trainerInit],
    ((validation_best_update_strict (trainerClassInit ℕ) (trainerInit ℕ) [] 5 42).1
      (by norm_num [attr_best_val, trainerClassInit, trainerInit])).2⟩

/-! ## C9: Trainer state is class-level, not per-instance -/

/-- C9 — counterexample. The claim states every freshly constructed
Trainer starts with an empty train-loss history independent of other
instances. On the code, `train_loss` is a class attribute mutated in
place: after a first trainer (`trainerInit`) logs an epoch loss of 1,
a second freshly constructed trainer reads `[1]`, not `[]`. -/
theorem trainer_fresh_instance_sees_history :
    attr_train_loss
        (append_train_loss (trainerClassInit ℕ) (trainerInit ℕ) 1)
        (trainerInit ℕ) = [1] ∧
      attr_train_loss
        (append_train_loss (trainerClassInit ℕ) (trainerInit ℕ) 1)
        (trainerInit ℕ) ≠ [] := by
  refine ⟨rfl, ?_⟩
  simp [attr_train_loss, append_train_loss, trainerClassInit]

/-- C9 (amended) — the loss/metric histories are class-level shared
state: `Trainer.__init__` does not reset them, a freshly constructed
instance reads exactly the current shared lists (including entries
appended through any other instance, via `append_train_loss` or the
validation block), and they are empty only in the fresh class state of
a new process; the class-level `best_val` default is `1e10`. -/
theorem trainer_state_class_level {M : Type} (cls : TrainerClass M)
    (inst inst' : TrainerInst M) (md : List (String × ℚ)) (v vl : ℚ) (model : M) :
    attr_train_loss cls (trainerInit M) = cls.train_loss ∧
      attr_train_loss (append_train_loss cls inst v) inst' = cls.train_loss ++ [v] ∧
      (validation_update cls inst md vl model).1.val_loss = cls.val_loss ++ [vl] ∧
      attr_train_loss (trainerClassInit M) (trainerInit M) = [] ∧
      attr_best_val (trainerClassInit M) (trainerInit M) = 10 ^ 10 := by
  refine ⟨rfl, rfl, ?_, rfl, rfl⟩
  simp only [validation_update]
  split <;> rfl

/-! ## C6: training loss index range -/

/-- A summed elementwise `zipWith` over two equal-length lists is the sum
of the elementwise terms over all indices. -/
lemma zipWith_sum_getD {P : Type} (f : P → ℕ → ℚ) (dp : P) :
    ∀ (l1 : List P) (l2 : List ℕ), l1.length = l2.length →
      (List.zipWith f l1 l2).sum
        = ∑ i ∈ Finset.range l1.length, f (l1.getD i dp) (l2.getD i 0)
  | [], [], _ => by simp
  | [], _ :: _, h => by simp at h
  | _ :: _, [], h => by simp at h
  | a :: t1, b :: t2, h => by
    have ih := zipWith_sum_getD f dp t1 t2 (by simpa using h)
    rw [List.zipWith_cons_cons, List.sum_cons, ih, List.length_cons,
      Finset.sum_range_succ']
    simp [add_comm]

/-- `getD` of `dropLast` agrees with `getD` below the last index. -/
lemma getD_dropLast {γ : Type} (l : List γ) (d : γ) (i : ℕ)
    (h : i < l.length - 1) :
    l.dropLast.getD i d = l.getD i d := by
  rw [List.dropLast_eq_take]
  simp [List.getD_eq_getElem?_getD, List.getElem?_take_of_lt h]

/-- C6 — in every training step, the training loss sums the per-element
cross-entropy terms over indices `0 .. N-2` of the flat prediction and
label sequences of the batch, where `N` is the total number of
sentences over all documents; only the single final sentence of the
entire flattened batch is excluded, independent of per-document
boundaries. -/
theorem train_loss_excludes_last_of_batch {P α : Type} (ce : P → ℕ → ℚ)
    (dp : P) (docs : List (PyDocument α)) (preds : List P)
    (h : preds.length = (batch_labels docs).length) :
    train_batch_loss ce preds (batch_labels docs)
      = ∑ i ∈ Finset.range ((docs.map (fun d => d.labels.length)).sum - 1),
          ce (preds.getD i dp) ((batch_labels docs).getD i 0) := by
  have hN : (batch_labels docs).length = (docs.map (fun d => d.labels.length)).sum := by
    simp [batch_labels, List.length_flatten, List.map_map, Function.comp_def]
  have hlen : preds.dropLast.length = (batch_labels docs).dropLast.length := by
    simp [h]
  rw [train_batch_loss, zipWith_sum_getD ce dp _ _ hlen]
  have hplen : preds.dropLast.length = (docs.map (fun d => d.labels.length)).sum - 1 := by
    simp [h, hN]
  rw [hplen]
  refine Finset.sum_congr rfl (fun i hi => ?_)
  rw [Finset.mem_range] at hi
  rw [getD_dropLast preds dp i (by omega), getD_dropLast _ 0 i (by omega)]

/-- C6 — witness: on the spec's two-document batch (labels `[0,0,1]` and
`[0,1]`, flat label sequence `[0,0,1,0,1]` of length 5) with
`ce p l = p + l`, the loss sums the first four terms only. -/
theorem train_loss_excludes_last_of_batch_witness :
    ([(10 : ℚ), 20, 30, 40, 50].length = (batch_labels demo_docs).length) ∧
      train_batch_loss (fun (p : ℚ) (l : ℕ) => p + l) [10, 20, 30, 40, 50]
          (batch_labels demo_docs)
        = ∑ i ∈ Finset.range ((demo_docs.map (fun d => d.labels.length)).sum - 1),
            (([(10 : ℚ), 20, 30, 40, 50].getD i 0) + ((batch_labels demo_docs).getD i 0)) :=
  ⟨by decide,
    train_loss_excludes_last_of_batch (fun (p : ℚ) (l : ℕ) => p + l) 0 demo_docs
      [10, 20, 30, 40, 50] (by decide)⟩

/-! ## C3: batch offsets and regroup -/

/-- `Batch.unravel` produces one more offset than there are documents. -/
lemma batch_ix_length {α : Type} (docs : List (PyDocument α)) :
    (batch_ix docs).length = docs.length + 1 := by
  simp [batch_ix]

/-- The `k`-th offset is the sum of the first `k` document lengths. -/
lemma batch_ix_getD {α : Type} (docs : List (PyDocument α)) (k : ℕ)
    (hk : k ≤ docs.length) :
    (batch_ix docs).getD k 0
      = ((docs.map (fun d => d.sents.length)).take k).sum := by
  simp only [batch_ix]
  rw [List.getD_eq_getElem?_getD, List.getElem?_map,
    List.getElem?_range (by simpa using Nat.lt_succ_of_le hk)]
  simp [List.take_succ_cons]

/-- `Batch.regroup` applied to the flat sentence sequence reconstructs
each document's sentence list. -/
lemma regroup_batch {α : Type} (docs : List (PyDocument α)) :
    regroup (batch_ix docs) (batch_sents docs) = docs.map (fun d => d.sents) := by
  set L : List (List α) := docs.map (fun d => d.sents) with hL
  have hLlen : L.length = docs.length := by simp [hL]
  have hlens : docs.map (fun d => d.sents.length) = L.map List.length := by
    simp [hL, List.map_map, Function.comp_def]
  have hsents : batch_sents docs = L.flatten := by simp [batch_sents, hL]
  apply List.ext_getElem
  · simp [regroup, batch_ix_length, hLlen]
  · intro j hj hj'
    have hjd : j < docs.length := by
      simpa [regroup, batch_ix_length] using hj
    simp only [regroup, List.getElem_map, List.getElem_range]
    rw [batch_ix_getD docs j (le_of_lt hjd), batch_ix_getD docs (j + 1) hjd,
      hlens, hsents]
    have hjL : j < L.length := by omega
    rw [List.sum_take_succ (L.map List.length) j (by simpa using hjL)]
    simp only [List.getElem_map]
    rw [Nat.add_sub_cancel_left, List.drop_sum_flatten,
      List.drop_eq_getElem_cons hjL, List.flatten_cons, List.take_left']
    rfl

/-- C3 — for every batch built from documents, the offset list satisfies
`offsets[0] = 0` and `offsets[i] = offsets[i-1] + len(Dᵢ)` for
`1 ≤ i ≤ n` (with one offset per document plus one), and `regroup`
applied to the flat sentence sequence returns exactly the per-document
sentence lists. -/
theorem batch_offsets_regroup {α : Type} (docs : List (PyDocument α)) (i : ℕ)
    (h1 : 1 ≤ i) (h2 : i ≤ docs.length) :
    (batch_ix docs).length = docs.length + 1 ∧
      (batch_ix docs).getD 0 0 = 0 ∧
      (batch_ix docs).getD i 0
        = (batch_ix docs).getD (i - 1) 0 + (docs.getD (i - 1) ⟨[], []⟩).sents.length ∧
      regroup (batch_ix docs) (batch_sents docs) = docs.map (fun d => d.sents) := by
  refine ⟨batch_ix_length docs, ?_, ?_, regroup_batch docs⟩
  · rw [batch_ix_getD docs 0 (by omega)]
    simp
  · rw [batch_ix_getD docs i h2, batch_ix_getD docs (i - 1) (by omega)]
    obtain ⟨k, rfl⟩ : ∃ k, i = k + 1 := ⟨i - 1, by omega⟩
    have hk : k < docs.length := by omega
    simp only [Nat.add_sub_cancel]
    rw [List.sum_take_succ _ k (by simpa using hk)]
    congr 1
    rw [List.getElem_map, List.getD_eq_getElem?_getD,
      List.getElem?_eq_getElem hk]
    rfl

/-- C3 — witness: the spec's end-to-end scenario. Documents of lengths 3
and 2 give offsets `[0,3,5]`, flat labels `[0,0,1,0,1]`, and `regroup`
maps `[a,b,c,d,e]` back to `[[a,b,c],[d,e]]`. -/
theorem batch_offsets_regroup_witness :
    ((1 : ℕ) ≤ 1 ∧ 1 ≤ demo_docs.length) ∧
      batch_ix demo_docs = [0, 3, 5] ∧
      batch_labels demo_docs = [0, 0, 1, 0, 1] ∧
      regroup (batch_ix demo_docs) [['a'], ['b'], ['c'], ['d'], ['e']]
        = [[['a'], ['b'], ['c']], [['d'], ['e']]] ∧
      regroup (batch_ix demo_docs) (batch_sents demo_docs)
        = demo_docs.map (fun d => d.sents) :=
  ⟨⟨le_refl 1, by decide⟩, by decide, by decide, by decide,
    (batch_offsets_regroup demo_docs 1 (le_refl 1) (by decide)).2.2.2⟩

/-! ## C2: pooling reduces the channel axis, not the length axis -/

/-- Column-wise combination of a nonempty list of equal-length rows has
the common row length. -/
lemma colZip_length (f : ℚ → ℚ → ℚ) (T : ℕ) :
    ∀ (m : List (List ℚ)), m ≠ [] → (∀ r ∈ m, r.length = T) →
      (colZip f m).length = T
  | [], h, _ => absurd rfl h
  | [r], _, h => by
    have hr : colZip f [r] = r := rfl
    rw [hr]
    exact h r (by simp)
  | r :: s :: t, _, h => by
    have ih := colZip_length f T (s :: t) (by simp)
      (fun x hx => h x (List.mem_cons_of_mem r hx))
    have hc : colZip f (r :: s :: t) = List.zipWith f r (colZip f (s :: t)) := rfl
    rw [hc, List.length_zipWith, ih, h r (by simp), Nat.min_self]

/-- C2 — counterexample. The claim states the reduction step collapses
the length axis, giving one value per hidden channel, i.e. shape
`(batch, hidden_dim)`. On a concrete `catted` of shape
`(batch, hidden_dim, positions) = (1, 2, 3)`, all three reductions
(`mean/max/sum` over `dim=1`) produce rows of length 3 (the length
axis survives; the channel axis is collapsed), not rows of length
`hidden_dim = 2`. -/
theorem pooling_not_hidden_dim :
    ((mean_dim1 demo_catted).getD 0 []).length = 3 ∧
      ((max_dim1 demo_catted).getD 0 []).length = 3 ∧
      ((sum_dim1 demo_catted).getD 0 []).length = 3 ∧
      mean_dim1 demo_catted = [[5 / 2, 7 / 2, 9 / 2]] ∧
      ¬ shape2 demo_catted.length 2 (mean_dim1 demo_catted) := by
  refine ⟨rfl, rfl, rfl, ?_, ?_⟩
  · show [List.map _ (colZip _ [[1, 2, 3], [4, 5, 6]])] = _
    norm_num [colZip]
  · decide

/-- The scorer input width equals the concatenated convolution width.
`input_dim = sum(maxlen - (n-1))` (Python int arithmetic) coincides
with the length axis of `catted`, `sum(maxlen - n + 1)`, whenever every
window size satisfies `1 ≤ n ≤ maxlen`. -/
lemma input_dim_eq_catted_width (maxlen : ℕ) :
    ∀ (nrange : List ℕ), (∀ n ∈ nrange, 1 ≤ n ∧ n ≤ maxlen) →
      input_dim (maxlen : ℤ) (nrange.map (fun (k : ℕ) => (k : ℤ)))
        = (catted_width maxlen nrange : ℤ)
  | [], _ => by simp [input_dim, catted_width]
  | n :: rest, h => by
    have ih := input_dim_eq_catted_width maxlen rest
      (fun x hx => h x (List.mem_cons_of_mem n hx))
    obtain ⟨hn1, hn2⟩ := h n (by simp)
    simp only [input_dim, catted_width, List.map_cons, List.sum_cons] at ih ⊢
    rw [ih]
    omega

/-- C2 (amended) — the final reduction step collapses the **channel**
axis of `catted`: for every batch, each of `avg`, `max`, `sum` maps a
`(batch, hidden_dim, positions)` tensor to shape `(batch, positions)`
where `positions = sum over n of (maxlen - n + 1)`; the scorer's input
dimension `sum(maxlen - (n-1))` is computed consistently with **that**
reduction. -/
theorem pooling_reduces_channel_axis (B C T : ℕ) (catted : List (List (List ℚ)))
    (hC : 0 < C) (h : shape3 B C T catted) (maxlen : ℕ) (nrange : List ℕ)
    (hn : ∀ n ∈ nrange, 1 ≤ n ∧ n ≤ maxlen) :
    shape2 B T (mean_dim1 catted) ∧ shape2 B T (max_dim1 catted) ∧
      shape2 B T (sum_dim1 catted) ∧
      input_dim (maxlen : ℤ) (nrange.map (fun (k : ℕ) => (k : ℤ)))
        = (catted_width maxlen nrange : ℤ) := by
  obtain ⟨hB, hm⟩ := h
  have hrow : ∀ m ∈ catted, m ≠ [] ∧ ∀ r ∈ m, r.length = T := by
    intro m hmem
    obtain ⟨h1, h2⟩ := hm m hmem
    refine ⟨?_, h2⟩
    intro he
    rw [he] at h1
    simp at h1
    omega
  refine ⟨⟨?_, ?_⟩, ⟨?_, ?_⟩, ⟨?_, ?_⟩, input_dim_eq_catted_width maxlen nrange hn⟩
  · simp [mean_dim1, hB]
  · intro r hr
    rw [mean_dim1, List.mem_map] at hr
    obtain ⟨m, hmem, rfl⟩ := hr
    rw [List.length_map]
    exact colZip_length _ T m (hrow m hmem).1 (hrow m hmem).2
  · simp [max_dim1, hB]
  · intro r hr
    rw [max_dim1, List.mem_map] at hr
    obtain ⟨m, hmem, rfl⟩ := hr
    exact colZip_length _ T m (hrow m hmem).1 (hrow m hmem).2
  · simp [sum_dim1, hB]
  · intro r hr
    rw [sum_dim1, List.mem_map] at hr
    obtain ⟨m, hmem, rfl⟩ := hr
    exact colZip_length _ T m (hrow m hmem).1 (hrow m hmem).2

/-- C2 — witness: on the concrete `(1, 2, 3)` tensor and the repo's
configuration `maxlen=64, nrange=[3,4,5]`, pooling yields shape
`(1, 3)` and the scorer input width is `62+61+60 = 183`. -/
theorem pooling_reduces_channel_axis_witness :
    ((0 : ℕ) < 2 ∧ shape3 1 2 3 demo_catted ∧
        (∀ n ∈ [3, 4, 5], 1 ≤ n ∧ n ≤ 64)) ∧
      (shape2 1 3 (mean_dim1 demo_catted) ∧ shape2 1 3 (max_dim1 demo_catted) ∧
        shape2 1 3 (sum_dim1 demo_catted) ∧
        input_dim ((64 : ℕ) : ℤ) (([3, 4, 5] : List ℕ).map (fun (k : ℕ) => (k : ℤ)))
          = (catted_width 64 [3, 4, 5] : ℤ)) :=
  ⟨⟨by decide, by decide, by decide⟩,
    pooling_reduces_channel_axis 1 2 3 demo_catted (by decide) (by decide)
      64 [3, 4, 5] (by decide)⟩

/-! ## C4: `clean_token` -/

/-- The apostrophe substitution is the identity on apostrophe-free
strings. -/
lemma subAposAux_eq_self (s : List Char) (hs : ∀ c ∈ s, c.toNat ≠ 39) :
    ∀ b, subAposAux b s = s := by
  induction s with
  | nil => intro b; rfl
  | cons c cs ih =>
    intro b
    rw [subAposAux, if_neg (hs c (by simp)),
      ih (fun x hx => hs x (List.mem_cons_of_mem c hx)) false]

/-- Kept characters are fixed points of `Char.toLower` (none of them is
an uppercase basic-latin letter). -/
lemma toLower_eq_self_of_keepChar {c : Char} (h : keepChar c = true) :
    c.toLower = c := by
  have hb : ¬ (c.toNat ≥ 65 ∧ c.toNat ≤ 90) := by
    simp only [keepChar, Bool.or_eq_true, Bool.and_eq_true,
      decide_eq_true_eq] at h
    omega
  unfold Char.toLower
  exact if_neg hb

/-- No kept character is an apostrophe (code 39). -/
lemma keepChar_ne_apos {c : Char} (h : keepChar c = true) : c.toNat ≠ 39 := by
  simp only [keepChar, Bool.or_eq_true, Bool.and_eq_true,
    decide_eq_true_eq] at h
  omega

/-- On non-digit tokens, `clean_token` is lowercasing followed by the
character filter (the apostrophe substitution is a no-op because the
filter already removed every apostrophe). -/
lemma clean_token_of_not_digit (t : List Char) (h : pyIsDigit t = false) :
    clean_token t = (t.map Char.toLower).filter keepChar := by
  rw [clean_token, if_neg (by simp [h]), subApos]
  exact subAposAux_eq_self _
    (fun c hc => keepChar_ne_apos (List.of_mem_filter hc)) false

/-- C4 — counterexample. The claim states `clean_token` is idempotent.
On the all-digit token `"5"` the first application returns the sentinel
`'#NUM'`, but cleaning `'#NUM'` again strips the `#`, lowercases, and
returns `'num'`, so the second application differs from the first. -/
theorem clean_token_not_idempotent :
    clean_token ['5'] = ['#', 'N', 'U', 'M'] ∧
      clean_token (clean_token ['5']) = ['n', 'u', 'm'] ∧
      clean_token (clean_token ['5']) ≠ clean_token ['5'] := by
  refine ⟨by decide, by decide, by decide⟩

/-- C4 (amended) — `clean_token` maps every all-digit token to the fixed
numeric sentinel `'#NUM'` (which is **not** a fixed point, so
idempotence fails there); it maps a token all of whose characters are
stripped by the filter to the empty string, whose lookup resolves to
the UNK index rather than crashing (provided the empty string is not in
the vocabulary mapping); and it is idempotent on every token that is
not all-digit and whose cleaned form is not all-digit. -/
theorem clean_token_idempotent_amended (t : List Char)
    (m : List Char → Option ℕ) :
    (pyIsDigit t = true → clean_token t = ['#', 'N', 'U', 'M']) ∧
      ((∀ c ∈ t, keepChar c.toLower = false) → clean_token t = []) ∧
      (pyIsDigit t = false → pyIsDigit (clean_token t) = false →
        clean_token (clean_token t) = clean_token t) ∧
      (m [] = none → stoi m [] = unk_idx) := by
  refine ⟨fun h => by rw [clean_token, if_pos h], fun h => ?_, fun h1 h2 => ?_,
    fun h => by simp [stoi, pyTruthy, h]⟩
  · have hd : pyIsDigit t = false := by
      cases t with
      | nil => rfl
      | cons c cs =>
        by_contra hc
        rw [Bool.not_eq_false, pyIsDigit, Bool.and_eq_true, List.all_eq_true] at hc
        have hcd := hc.2 c (by simp)
        simp only [Bool.and_eq_true, decide_eq_true_eq] at hcd
        have hk : keepChar c.toLower = false := h c (by simp)
        have hlc : c.toLower = c := by
          unfold Char.toLower
          exact if_neg (by omega)
        rw [hlc, keepChar] at hk
        simp only [Bool.or_eq_false_iff, Bool.and_eq_false_iff,
          decide_eq_false_iff_not] at hk
        omega
    rw [clean_token_of_not_digit t hd, List.filter_eq_nil_iff]
    intro c hc
    rw [List.mem_map] at hc
    obtain ⟨x, hx, rfl⟩ := hc
    simp [h x hx]
  · have hs : ∀ c ∈ (t.map Char.toLower).filter keepChar, keepChar c = true :=
      fun c hc => List.of_mem_filter hc
    rw [clean_token_of_not_digit t h1] at h2 ⊢
    rw [clean_token_of_not_digit _ h2]
    rw [List.map_congr_left (fun c hc => toLower_eq_self_of_keepChar (hs c hc)),
      List.map_id', List.filter_eq_self.mpr hs]

/-- C4 — witness: `"42"` maps to the sentinel; `"#$"` (only stripped
characters) cleans to the empty string whose lookup is UNK; and the
non-digit token `"aB"` is a fixed point after one cleaning. -/
theorem clean_token_idempotent_amended_witness :
    clean_token ['4', '2'] = ['#', 'N', 'U', 'M'] ∧
      clean_token ['#', '$'] = [] ∧
      clean_token (clean_token ['a', 'B']) = clean_token ['a', 'B'] ∧
      stoi demo_stoi [] = unk_idx :=
  ⟨(clean_token_idempotent_amended ['4', '2'] demo_stoi).1 (by decide),
    (clean_token_idempotent_amended ['#', '$'] demo_stoi).2.1 (by decide),
    (clean_token_idempotent_amended ['a', 'B'] demo_stoi).2.2.1 (by decide)
      (by decide),
    (clean_token_idempotent_amended [] demo_stoi).2.2.2 rfl⟩

end TextSeg
